import Mathlib

/-!
Verification development for the `unity-mcp-server` bridge
(`src/unity-mcp-server/src/index.ts`).

The TypeScript server is embedded shallowly:

* `UnityEditorState`, `LogEntry` — the data model (lines 12-27 of the
  source).
* `filterEditorStateMsg` — the `editorState` branch of
  `handleUnityMessage` (lines 114-138): wholesale replacement of the
  mirrored snapshot with `|| default` normalisation and the
  `Packages/` prefix filter on asset-category lists.
* `handleLogMessage` — the ring-buffer insert (lines 539-545).
* `matchesFilters` / `filterLogs` / `getLogs` — the `get_logs`
  pipeline (lines 508-528 and 547-603).  JavaScript `Date` parsing is
  abstracted by an explicit `parse : String → Int` parameter; all
  theorems hold for every such parser.
* `ServerState` / `CEvent` / `step` — an event-level small-step
  semantics of the promise machinery around `commandResultPromise`
  (lines 44-49, 107-110, 140-146, 337-344, 406-451).  A JavaScript
  promise resolves at most once; `settle` records the first
  settlement of each `execute_editor_command` call and ignores later
  ones, exactly as `Promise.race` does.
-/

/-- LogEntry as in the source (lines 22-27): message, stack trace, log
type and timestamp, all strings (the timestamp is an ISO string). -/
structure LogEntry where
  message : String
  stackTrace : String
  logType : String
  timestamp : String
deriving Repr, DecidableEq

/-- The untyped `sceneHierarchy` payload (`any` in the source) modelled
as a JSON object, i.e. an association list; the server never inspects
it, only defaults it to the empty object. -/
def SceneHierarchy : Type := List (String × String)

instance : DecidableEq SceneHierarchy := by
  unfold SceneHierarchy
  infer_instance

instance : Repr SceneHierarchy := by
  unfold SceneHierarchy
  infer_instance

/-- UnityEditorState as in the source (lines 12-20).  The
`projectStructure` object is an association list from asset-category
name to the list of asset paths. -/
structure UnityEditorState where
  activeGameObjects : List String
  selectedObjects : List String
  playModeState : String
  sceneHierarchy : SceneHierarchy
  projectStructure : List (String × List String)
deriving Repr, DecidableEq

/-- The initial mirror value (lines 33-39). -/
def initialEditorState : UnityEditorState :=
  ⟨[], [], "Stopped", ([] : List (String × String)), []⟩

/-- A JSON value sitting in an asset-category slot of an inbound
`editorState` frame: either an array of strings or something that is
not an array (the source tests `Array.isArray`). -/
inductive JValue where
  | arr (paths : List String)
  | nonArray
deriving Repr, DecidableEq

/-- The `data` payload of an inbound `editorState` frame.  Each field
is optional: `none` models an absent (`undefined`) field, which is
falsy in the source's `||` defaulting. -/
structure EditorStateMsg where
  activeGameObjects : Option (List String)
  selectedObjects : Option (List String)
  playModeState : Option String
  sceneHierarchy : Option SceneHierarchy
  projectStructure : Option (List (String × JValue))
deriving Repr, DecidableEq

/-- The `editorState` branch of `handleUnityMessage` (lines 116-137):
builds the filtered snapshot.  `|| []` and `|| \x7b\x7d` keep a present
truthy value and default an absent one; `|| 'Stopped'` additionally
defaults the empty string, the only falsy string.  A category whose
value is not an array is skipped entirely; an array-valued category is
kept with every path starting with `Packages/` removed. -/
def filterEditorStateMsg (m : EditorStateMsg) : UnityEditorState where
  activeGameObjects := m.activeGameObjects.getD []
  selectedObjects := m.selectedObjects.getD []
  playModeState :=
    match m.playModeState with
    | some s => if s = "" then "Stopped" else s
    | none => "Stopped"
  sceneHierarchy := m.sceneHierarchy.getD ([] : List (String × String))
  projectStructure :=
    match m.projectStructure with
    | some ps =>
        ps.filterMap fun kv =>
          match kv.2 with
          | .arr paths => some (kv.1, paths.filter fun p => !(p.startsWith "Packages/"))
          | .nonArray => none
    | none => []

/-- Capacity bound of the ring log buffer (line 42). -/
def maxLogBufferSize : Nat := 1000

/-- Ring-buffer insert (lines 539-545): push the entry, then shift the
oldest one off if the length exceeds the capacity. -/
def handleLogMessage (cap : Nat) (buf : List LogEntry) (e : LogEntry) : List LogEntry :=
  let b := buf ++ [e]
  if cap < b.length then b.drop 1 else b

/-- A whole sequence of ring-buffer inserts starting from the empty
buffer. -/
def insertAll (cap : Nat) (es : List LogEntry) : List LogEntry :=
  es.foldl (handleLogMessage cap) []

/-- How an `execute_editor_command` call can settle.  The source
surfaces: the command result (`commandResult` frame resolving the
slot), the 5000 ms timeout rejection (lines 446-450), the
not-connected throw (lines 339-344), and the invalid/empty-code throw
(lines 408-427). -/
inductive Outcome where
  | ok (data : String)
  | timedOut
  | notConnected
  | invalidCode
deriving Repr, DecidableEq

/-- Record the settlement of call `k`: a promise resolves at most
once, so a later settlement of an already-settled call has no
effect. -/
def settle (st : List (Nat × Outcome)) (k : Nat) (o : Outcome) : List (Nat × Outcome) :=
  if (st.lookup k).isSome then st else st ++ [(k, o)]

/-- The server state relevant to the claims: the connection reference
(`unityConnection`, collapsed to a flag), the mirrored editor state,
the log buffer, the single command-result slot (`commandResultPromise`,
holding the id of the call whose resolver is installed), the
settlements of all calls so far, and the dispatch frames sent in
order. -/
structure ServerState where
  connected : Bool
  editorState : UnityEditorState
  logBuffer : List LogEntry
  pending : Option Nat
  settled : List (Nat × Outcome)
  sent : List String
deriving Repr, DecidableEq

/-- State at construction time (lines 32-49): no connection, initial
mirror, empty buffer, empty slot. -/
def init0 : ServerState :=
  ⟨false, initialEditorState, [], none, [], []⟩

/-- Inbound frames routed by `handleUnityMessage` (lines 114-155). -/
inductive UnityMessage where
  | editorState (d : EditorStateMsg)
  | commandResult (data : String)
  | log (e : LogEntry)
  | unknown (t : String)
deriving Repr, DecidableEq

/-- `handleUnityMessage` (lines 114-155): `editorState` replaces the
mirror with the filtered snapshot; `commandResult` resolves the
pending slot if one exists (and clears it), otherwise is discarded;
`log` inserts into the ring buffer; an unknown type is logged and
discarded. -/
def handleUnityMessage (s : ServerState) (m : UnityMessage) : ServerState :=
  match m with
  | .editorState d => { s with editorState := filterEditorStateMsg d }
  | .commandResult data =>
      match s.pending with
      | some k => { s with pending := none, settled := settle s.settled k (.ok data) }
      | none => s
  | .log e => { s with logBuffer := handleLogMessage maxLogBufferSize s.logBuffer e }
  | .unknown _ => s

/-- Events driving the promise machinery: a Unity connection opening
(line 91), an inbound frame, an `execute_editor_command` call reaching
the handler, the 5000 ms timer of call `id` firing (lines 446-450),
and the socket `close` event (lines 107-110).  The source's
empty-code validation `!args?.code || args.code.trim().length === 0`
is the test that every character of the code is whitespace. -/
inductive CEvent where
  | connect
  | message (m : UnityMessage)
  | execCall (id : Nat) (code : String)
  | timerFire (id : Nat)
  | close
deriving Repr, DecidableEq

/-- One step of the server.  `execCall` follows the handler order: the
connection check (lines 339-344) throws before anything is sent; the
code validation (lines 408-427) throws before anything is sent; then
the dispatch frame is sent (lines 435-438) and the resolver slot is
installed (line 444) — overwriting whatever was there, the source has
no occupancy check.  `timerFire` rejects the racing promise of call
`id` but leaves `commandResultPromise` untouched (nothing in lines
446-450 or 476-482 clears it).  `close` only clears the connection
reference (lines 107-110). -/
def step (s : ServerState) (e : CEvent) : ServerState :=
  match e with
  | .connect => { s with connected := true }
  | .message m => handleUnityMessage s m
  | .execCall id code =>
      if s.connected then
        if code.toList.all Char.isWhitespace then
          { s with settled := settle s.settled id .invalidCode }
        else { s with sent := s.sent ++ [code], pending := some id }
      else { s with settled := settle s.settled id .notConnected }
  | .timerFire id => { s with settled := settle s.settled id .timedOut }
  | .close => { s with connected := false }

/-- Run a sequence of events from a state. -/
def run (s : ServerState) (es : List CEvent) : ServerState :=
  es.foldl step s

/-- Options accepted by the `get_logs` tool (lines 509-517).  `none`
models an absent argument. -/
structure GetLogsOptions where
  types : Option (List String)
  count : Option Nat
  fields : Option (List String)
  messageContains : Option String
  stackTraceContains : Option String
  timestampAfter : Option String
  timestampBefore : Option String
deriving Repr, DecidableEq

/-- A `get_logs` call with every option absent. -/
def noOptions : GetLogsOptions :=
  ⟨none, none, none, none, none, none, none⟩

/-- JavaScript `String.prototype.includes`: substring containment. -/
def containsSub (hay needle : String) : Bool :=
  decide (needle.toList <:+: hay.toList)

/-- The filter predicate of `filterLogs` (lines 568-583), one early
`return false` per option.  Timestamp comparison abstracts
`new Date(x)` by `parse`; an empty timestamp string is falsy in the
source's `&&` guard, so it disables the bound. -/
def matchesFilters (parse : String → Int) (o : GetLogsOptions) (log : LogEntry) : Bool :=
  (match o.types with
   | some ts => ts.contains log.logType
   | none => true) &&
  (match o.messageContains with
   | some m => containsSub log.message m
   | none => true) &&
  (match o.stackTraceContains with
   | some t => containsSub log.stackTrace t
   | none => true) &&
  (match o.timestampAfter with
   | some t => if t = "" then true else if parse log.timestamp < parse t then false else true
   | none => true) &&
  (match o.timestampBefore with
   | some t => if t = "" then true else if parse t < parse log.timestamp then false else true
   | none => true)

/-- JavaScript `array.slice(-count)` for a natural `count`: the last
`count` elements; `slice(-0)` is `slice(0)`, the whole array. -/
def sliceLast (count : Nat) (l : List α) : List α :=
  if count = 0 then l else l.drop (l.length - count)

/-- A JSON log record returned by `get_logs`: each of the four known
fields is present or absent. -/
structure LogRecord where
  message : Option String
  stackTrace : Option String
  logType : Option String
  timestamp : Option String
deriving Repr, DecidableEq

/-- A full log entry serialised as a record with all fields present
(the `return filteredLogs` path, line 602). -/
def entryRecord (e : LogEntry) : LogRecord :=
  ⟨some e.message, some e.stackTrace, some e.logType, some e.timestamp⟩

/-- Field projection (lines 589-600): keep exactly the requested known
fields. -/
def selectFields (fs : List String) (e : LogEntry) : LogRecord where
  message := if fs.contains "message" then some e.message else none
  stackTrace := if fs.contains "stackTrace" then some e.stackTrace else none
  logType := if fs.contains "logType" then some e.logType else none
  timestamp := if fs.contains "timestamp" then some e.timestamp else none

/-- `filterLogs` (lines 547-603): apply all filters, keep the last
`count` matches (destructuring default 100), then project fields if a
non-empty `fields` array was given. -/
def filterLogs (parse : String → Int) (buf : List LogEntry) (o : GetLogsOptions) :
    List LogRecord :=
  let count := o.count.getD 100
  let filtered := buf.filter (matchesFilters parse o)
  let limited := sliceLast count filtered
  match o.fields with
  | some fs => if fs.isEmpty then limited.map entryRecord else limited.map (selectFields fs)
  | none => limited.map entryRecord

/-- The `get_logs` tool handler (lines 508-519): `args?.count || 100`
replaces an absent or zero (falsy) count by 100, then delegates to
`filterLogs`. -/
def getLogs (parse : String → Int) (buf : List LogEntry) (o : GetLogsOptions) :
    List LogRecord :=
  filterLogs parse buf
    { o with count := some (match o.count with
        | some c => if c = 0 then 100 else c
        | none => 100) }

/-- The `get_logs` tool call as a state transition: it reads the
buffer and returns the filtered view; the handler performs no write
to any server field. -/
def getLogsStep (parse : String → Int) (s : ServerState) (o : GetLogsOptions) :
    List LogRecord × ServerState :=
  (getLogs parse s.logBuffer o, s)

/-- Formats of the `get_editor_state` tool (lines 361-390). -/
inductive GetFormat where
  | raw
  | scriptsOnly
  | noScripts
deriving Repr, DecidableEq

/-- Response shapes of `get_editor_state`: the full state, a bare list
of script paths, or the state with the `scripts` category removed. -/
inductive StateResponse where
  | raw (s : UnityEditorState)
  | scripts (paths : List String)
  | noScripts (activeGameObjects selectedObjects : List String)
      (playModeState : String) (sceneHierarchy : SceneHierarchy)
      (projectStructure : List (String × List String))
deriving Repr, DecidableEq

/-- The `get_editor_state` handler body (lines 374-390):
`scripts only` is `projectStructure.scripts || []`; `no scripts`
rebuilds the state with the `scripts` key spread away. -/
def getEditorState (s : UnityEditorState) (f : GetFormat) : StateResponse :=
  match f with
  | .raw => .raw s
  | .scriptsOnly => .scripts ((s.projectStructure.lookup "scripts").getD [])
  | .noScripts =>
      .noScripts s.activeGameObjects s.selectedObjects s.playModeState s.sceneHierarchy
        (s.projectStructure.filter fun kv => !(kv.1 == "scripts"))

/-- A concrete log entry used in counterexamples. -/
def mkEntry (i : Nat) : LogEntry :=
  ⟨toString i, "", "Log", ""⟩

/-- A buffer one entry longer than the default `get_logs` count. -/
def bigBuf : List LogEntry :=
  (List.range 101).map mkEntry

/-! ## Coordinator claims -/

/-- C1 — The claim says a second `execute_editor_command` issued while
one is pending is rejected with `AlreadyInFlight` and does not alter
the first call's eventual resolution.  Evaluating the embedded handler
shows the opposite: the second call is dispatched (both frames are
sent), `commandResultPromise` is silently overwritten to call 2, the
result frame then resolves call 2, and call 1 — which would have
received the result had the second call been rejected — can only
settle by its own timeout. -/
theorem commandSlotOverwritten_bug :
    (run init0 [.connect, .execCall 1 "a", .execCall 2 "b"]).pending = some 2 ∧
    (run init0 [.connect, .execCall 1 "a", .execCall 2 "b"]).sent = ["a", "b"] ∧
    ((run init0 [.connect, .execCall 1 "a", .execCall 2 "b",
        .message (.commandResult "r"), .timerFire 1, .timerFire 2]).settled).lookup 1
      = some Outcome.timedOut ∧
    ((run init0 [.connect, .execCall 1 "a", .execCall 2 "b",
        .message (.commandResult "r"), .timerFire 1, .timerFire 2]).settled).lookup 2
      = some (Outcome.ok "r") ∧
    ((run init0 [.connect, .execCall 1 "a",
        .message (.commandResult "r"), .timerFire 1]).settled).lookup 1
      = some (Outcome.ok "r") := by
  decide

/-- C2 — The claim says dropping the transport while a command is in
flight resolves the pending slot with `TransportError`.  Evaluating
the embedded `close` handler shows it only clears the connection
reference: immediately after the close the call is still unresolved
and the slot still occupied, and the call is eventually rejected by
the 5000 ms timer with a Timeout error (the code has no
`TransportError` resolution path at all). -/
theorem disconnectLeavesPending_bug :
    (run init0 [.connect, .execCall 1 "a", .close]).pending = some 1 ∧
    (run init0 [.connect, .execCall 1 "a", .close]).settled = [] ∧
    ((run init0 [.connect, .execCall 1 "a", .close, .timerFire 1]).settled).lookup 1
      = some Outcome.timedOut := by
  decide

/-- C3 (counterexample) — The claim says that immediately after the
timeout fires the pending slot is clear.  Evaluating the embedded
handler on a command whose timer fires with no result shows the call
does settle with Timeout, but `commandResultPromise` is still
occupied by the stale resolver. -/
theorem timeoutSlotNotCleared_cex :
    ((run init0 [.connect, .execCall 1 "a", .timerFire 1]).settled).lookup 1
      = some Outcome.timedOut ∧
    (run init0 [.connect, .execCall 1 "a", .timerFire 1]).pending = some 1 ∧
    (run init0 [.connect, .execCall 1 "a", .timerFire 1]).pending ≠ none := by
  decide

/-- C3 (amended) — A command that receives no result within the
timeout window fails with Timeout, but the pending slot is NOT
cleared: the timer leaves `commandResultPromise` exactly as it was.
A subsequent `execute_editor_command` call nevertheless dispatches
successfully, because dispatch never checks the slot and simply
overwrites it. -/
theorem timeoutKeepsSlot (s : ServerState) (id : Nat) :
    (step s (.timerFire id)).pending = s.pending ∧
    (step s (.timerFire id)).settled = settle s.settled id .timedOut ∧
    (∀ (id2 : Nat) (code : String), s.connected = true →
      code.toList.all Char.isWhitespace = false →
      (step (step s (.timerFire id)) (.execCall id2 code)).pending = some id2 ∧
      (step (step s (.timerFire id)) (.execCall id2 code)).sent = s.sent ++ [code]) := by
  refine ⟨rfl, rfl, ?_⟩
  intro id2 code hc hcode
  have h' : ¬ ∀ x ∈ code.data, x.isWhitespace = true := by
    intro hall
    have hx : code.toList.all Char.isWhitespace = true := List.all_eq_true.mpr hall
    rw [hx] at hcode
    exact Bool.noConfusion hcode
  simp [step, hc, h']

/-- Witness for C3's amended theorem at a concrete state: after call 1
times out, call 2 still dispatches and takes over the slot. -/
theorem timeoutKeepsSlot_witness :
    (step (step (run init0 [.connect, .execCall 1 "a"]) (.timerFire 1))
        (.execCall 2 "b")).pending = some 2 ∧
    (step (step (run init0 [.connect, .execCall 1 "a"]) (.timerFire 1))
        (.execCall 2 "b")).sent = ["a", "b"] := by
  have h := (timeoutKeepsSlot (run init0 [.connect, .execCall 1 "a"]) 1).2.2 2 "b"
    (by decide) (by decide)
  exact ⟨h.1, by rw [h.2]; decide⟩

/-- C7 — When no Unity connection exists, every tool call — in
particular `execute_editor_command` — throws the not-connected error
at the top of the handler (lines 339-344), before any dispatch frame
is sent and without touching the pending slot. -/
theorem execNotConnected (s : ServerState) (id : Nat) (code : String)
    (h : s.connected = false) :
    (step s (.execCall id code)).sent = s.sent ∧
    (step s (.execCall id code)).pending = s.pending ∧
    (step s (.execCall id code)).settled = settle s.settled id .notConnected := by
  simp [step, h]

/-- Witness for C7 at the initial (disconnected) state: the call fails
with the not-connected error and nothing is sent. -/
theorem execNotConnected_witness :
    (step init0 (.execCall 1 "noop")).sent = [] ∧
    (step init0 (.execCall 1 "noop")).settled = [(1, Outcome.notConnected)] :=
  ⟨(execNotConnected init0 1 "noop" rfl).1,
   (execNotConnected init0 1 "noop" rfl).2.2⟩

/-! ## Ring log buffer -/

/-- Folding ring-buffer inserts over any buffer within capacity yields
the suffix of the concatenation that fits the capacity. -/
theorem foldl_handleLogMessage_eq (cap : Nat) :
    ∀ (es : List LogEntry) (buf : List LogEntry), buf.length ≤ cap →
      es.foldl (handleLogMessage cap) buf
        = (buf ++ es).drop (buf.length + es.length - cap) := by
  intro es
  induction es with
  | nil =>
      intro buf h
      simp [Nat.sub_eq_zero_of_le h]
  | cons e es ih =>
      intro buf h
      rw [List.foldl_cons]
      by_cases hc : cap < (buf ++ [e]).length
      · have hlen : buf.length = cap := by
          simp at hc
          omega
        have hstep : handleLogMessage cap buf e = (buf ++ [e]).drop 1 := by
          simp only [handleLogMessage]
          rw [if_pos hc]
        have hlen2 : ((buf ++ [e]).drop 1).length = cap := by
          simp [hlen]
        rw [hstep, ih ((buf ++ [e]).drop 1) (le_of_eq hlen2), hlen2]
        have h1 : cap + es.length - cap = es.length := by omega
        have h2 : buf.length + (e :: es).length - cap = 1 + es.length := by
          simp [hlen]
          omega
        rw [h1, h2]
        have h3 : buf ++ e :: es = (buf ++ [e]) ++ es := by simp
        rw [h3, ← List.drop_drop,
          List.drop_append_of_le_length (by simp : 1 ≤ (buf ++ [e]).length)]
      · have hle : buf.length + 1 ≤ cap := by
          simp at hc
          omega
        have hstep : handleLogMessage cap buf e = buf ++ [e] := by
          simp only [handleLogMessage]
          rw [if_neg hc]
        rw [hstep, ih (buf ++ [e]) (by simp; omega)]
        have h3 : (buf ++ [e]) ++ es = buf ++ e :: es := by simp
        have h4 : (buf ++ [e]).length + es.length - cap
            = buf.length + (e :: es).length - cap := by
          simp
          omega
        rw [h3, h4]

/-- C4 — Ring-buffer invariant: for every capacity and every sequence
of inserts starting from the empty buffer, the length never exceeds
the capacity (every prefix of the sequence is itself such a sequence),
and the retained elements are exactly the suffix of the insertion
sequence that fits — the `cap` most recent events in original
insertion order, the oldest evicted first.  In particular, with
capacity 3, inserting a, b, c, d leaves [b, c, d]. -/
theorem ringBufferFIFO (cap : Nat) (es : List LogEntry) :
    (insertAll cap es).length ≤ cap ∧
    insertAll cap es = es.drop (es.length - cap) ∧
    (∀ a b c d : LogEntry, insertAll 3 [a, b, c, d] = [b, c, d]) := by
  have key : ∀ (cap' : Nat) (l : List LogEntry),
      insertAll cap' l = l.drop (l.length - cap') := by
    intro cap' l
    have h := foldl_handleLogMessage_eq cap' l [] (by simp)
    simpa [insertAll] using h
  refine ⟨?_, key cap es, ?_⟩
  · rw [key cap es, List.length_drop]
    omega
  · intro a b c d
    rw [key 3 [a, b, c, d]]
    rfl

/-! ## Log query claims -/

/-- With no filter options, every entry passes the filter predicate. -/
theorem matchesFilters_noOptions (parse : String → Int) (c : Option Nat) (e : LogEntry) :
    matchesFilters parse { noOptions with count := c } e = true := by
  simp [matchesFilters, noOptions]

/-- Normal form of a no-options `get_logs` call: the count defaults to
100, every entry passes the filters, so the result is the suffix of
the buffer of length at most 100, serialised with all fields. -/
theorem getLogs_noOptions_eq (parse : String → Int) (buf : List LogEntry) :
    getLogs parse buf noOptions = (buf.drop (buf.length - 100)).map entryRecord := by
  unfold getLogs filterLogs
  have hfil : buf.filter
      (matchesFilters parse ⟨none, some 100, none, none, none, none, none⟩) = buf :=
    List.filter_eq_self.mpr fun a _ => matchesFilters_noOptions parse (some 100) a
  simp [noOptions, hfil, sliceLast]

/-- C5 (amended) — `get_logs` with no filter options returns the last
`min 100 (buffer length)` entries of the buffer, unmodified and in
insertion order: the `count` option defaults to 100, so the result is
the entire buffer exactly when the buffer holds at most 100 entries,
and otherwise a 100-entry suffix. -/
theorem getLogsDefaultCount (parse : String → Int) (buf : List LogEntry) :
    getLogs parse buf noOptions = (buf.drop (buf.length - 100)).map entryRecord :=
  getLogs_noOptions_eq parse buf

/-- C5 (counterexample) — The claim says a no-options `get_logs` call
returns the entire buffer content, never a truncated suffix.  On a
101-entry buffer the call returns only 100 records, so the result is
not the whole buffer. -/
theorem getLogsTruncates_cex :
    bigBuf.length = 101 ∧
    (getLogs (fun _ => 0) bigBuf noOptions).length = 100 ∧
    getLogs (fun _ => 0) bigBuf noOptions ≠ bigBuf.map entryRecord := by
  have hlen : bigBuf.length = 101 := by
    simp [bigBuf]
  have h := getLogs_noOptions_eq (fun _ => 0) bigBuf
  refine ⟨hlen, ?_, ?_⟩
  · rw [h, List.length_map, List.length_drop, hlen]
  · rw [h]
    intro heq
    have hl := congrArg List.length heq
    rw [List.length_map, List.length_map, List.length_drop, hlen] at hl
    exact absurd hl (by decide)

/-- C8 — `get_logs` is a pure read: as a state transition it leaves
the whole server state (in particular the log buffer) unchanged, and
for every buffer state and every filter configuration a second call
on the resulting state returns the identical result. -/
theorem getLogsPure (parse : String → Int) (s : ServerState) (o : GetLogsOptions) :
    (getLogsStep parse s o).2 = s ∧
    (getLogsStep parse s o).1 = (getLogsStep parse ((getLogsStep parse s o).2) o).1 :=
  ⟨rfl, rfl⟩

/-! ## State mirror claims -/

/-- C6 — Processing an `editorState` frame replaces the mirrored
snapshot wholesale (the result does not depend on the previous server
state), and when every asset-category value is an array the mirrored
`projectStructure` keeps every category with exactly the paths that do
not start with the reserved `Packages/` prefix, in their original
order. -/
theorem snapshotReplaceStripsPackages (s s' : ServerState)
    (ago so : List String) (pm : String) (sh : SceneHierarchy)
    (ps : List (String × List String)) :
    (handleUnityMessage s (.editorState
        ⟨some ago, some so, some pm, some sh,
          some (ps.map fun kv => (kv.1, JValue.arr kv.2))⟩)).editorState
      = (handleUnityMessage s' (.editorState
        ⟨some ago, some so, some pm, some sh,
          some (ps.map fun kv => (kv.1, JValue.arr kv.2))⟩)).editorState ∧
    (handleUnityMessage s (.editorState
        ⟨some ago, some so, some pm, some sh,
          some (ps.map fun kv => (kv.1, JValue.arr kv.2))⟩)).editorState.projectStructure
      = ps.map fun kv => (kv.1, kv.2.filter fun p => !(p.startsWith "Packages/")) := by
  constructor
  · rfl
  · show (filterEditorStateMsg _).projectStructure = _
    simp only [filterEditorStateMsg]
    induction ps with
    | nil => rfl
    | cons kv t ih =>
        simp only [List.map_cons, List.filterMap_cons] at ih ⊢
        rw [ih]

/-- C9 — `get_editor_state` with format `scripts only` returns the
empty list (not a failure, not an absent value) whenever the mirrored
snapshot has no `scripts` category; in particular it does so on the
initial mirror value, before any snapshot has been published. -/
theorem scriptsOnlyEmpty :
    (∀ s : UnityEditorState, s.projectStructure.lookup "scripts" = none →
      getEditorState s GetFormat.scriptsOnly = StateResponse.scripts []) ∧
    getEditorState initialEditorState GetFormat.scriptsOnly = StateResponse.scripts [] := by
  constructor
  · intro s h
    simp [getEditorState, h]
  · rfl

/-- Witness for C9 at a concrete snapshot that has asset categories
but no `scripts` one. -/
theorem scriptsOnlyEmpty_witness :
    getEditorState ⟨["Camera"], [], "Stopped", ([] : List (String × String)),
        [("prefabs", ["Assets/P.prefab"])]⟩ GetFormat.scriptsOnly
      = StateResponse.scripts [] :=
  scriptsOnlyEmpty.1
    ⟨["Camera"], [], "Stopped", ([] : List (String × String)),
      [("prefabs", ["Assets/P.prefab"])]⟩ (by decide)

/-- C10 — Normalisation of an `editorState` frame: an absent
`activeGameObjects`/`selectedObjects` field becomes the empty list, an
absent `playModeState` becomes `Stopped`, an absent `sceneHierarchy`
becomes the empty object, and a category of `projectStructure` whose
value is not an array contributes nothing to the mirror — the mirrored
categories are exactly the array-valued ones, with their `Packages/`
paths stripped. -/
theorem editorStateDefaults (ago so : Option (List String)) (pm : Option String)
    (sh : Option SceneHierarchy) (ops : Option (List (String × JValue)))
    (ps : List (String × JValue)) :
    (filterEditorStateMsg ⟨none, so, pm, sh, ops⟩).activeGameObjects = [] ∧
    (filterEditorStateMsg ⟨ago, none, pm, sh, ops⟩).selectedObjects = [] ∧
    (filterEditorStateMsg ⟨ago, so, none, sh, ops⟩).playModeState = "Stopped" ∧
    (filterEditorStateMsg ⟨ago, so, pm, none, ops⟩).sceneHierarchy
      = ([] : List (String × String)) ∧
    (∀ (k : String) (v : List String),
      (k, v) ∈ (filterEditorStateMsg ⟨ago, so, pm, sh, some ps⟩).projectStructure ↔
        ∃ paths, (k, JValue.arr paths) ∈ ps ∧
          v = paths.filter fun p => !(p.startsWith "Packages/")) := by
  refine ⟨rfl, rfl, rfl, rfl, ?_⟩
  intro k v
  simp only [filterEditorStateMsg, List.mem_filterMap]
  constructor
  · rintro ⟨⟨k', jv⟩, hmem, heq⟩
    cases jv with
    | arr paths =>
        simp only [Option.some.injEq, Prod.mk.injEq] at heq
        exact ⟨paths, by rw [← heq.1]; exact hmem, heq.2.symm⟩
    | nonArray => exact absurd heq (by simp)
  · rintro ⟨paths, hmem, hv⟩
    exact ⟨(k, JValue.arr paths), hmem, by simp [hv]⟩
